import Mathlib

/-!
Verification of the route-metrics calculator (`route_planner/calculator.py`).

The Python module is pure: a configuration record, an `Activity` record, a
`RouteMetrics` record, and one method `RouteMetricsCalculator.calculate`
that validates its three trip parameters and then builds a contiguous
activity schedule with a while-loop.  We embed it shallowly over `ℚ`
(the source uses floats; all claims are algebraic, none depend on
rounding).  The while-loop is embedded with explicit fuel and an `Option`
result: `none` models non-termination / the ZeroDivisionError that the
Python loop would hit on a degenerate configuration, and we prove that for
positive `speed_mph` and `max_driving_hours` a concrete fuel bound always
suffices, mirroring the termination argument of the spec.
-/

namespace RoutePlanner

/-- Activity kinds (`ActivityType` enum in calculator.py). -/
inductive ActivityType where
  | LOADING
  | DRIVING
  | BREAK
  | UNLOADING
deriving DecidableEq

/-- One scheduled event (`Activity` dataclass in calculator.py). -/
structure Activity where
  activity_type : ActivityType
  start_time : ℚ
  duration : ℚ
  miles : ℚ
  notes : String
deriving DecidableEq

/-- The derived `end_time` property of `Activity`. -/
def Activity.end_time (a : Activity) : ℚ := a.start_time + a.duration

/-- Computed result (`RouteMetrics` dataclass in calculator.py). -/
structure RouteMetrics where
  total_miles : ℚ
  deadhead_miles : ℚ
  loaded_miles : ℚ
  total_driving_time : ℚ
  total_break_time : ℚ
  total_load_unload_time : ℚ
  total_time : ℚ
  activities : List Activity
deriving DecidableEq

/-- Calculator configuration (the five constructor parameters of
`RouteMetricsCalculator`). -/
structure Config where
  speed_mph : ℚ
  max_driving_hours : ℚ
  break_duration : ℚ
  loading_duration : ℚ
  unloading_duration : ℚ
deriving DecidableEq

/-- Default configuration (class constants of `RouteMetricsCalculator`:
speed 55 mph, 11 h driving window, 10 h break, 1.5 h loading, 1.5 h
unloading). -/
def defaultConfig : Config := ⟨55, 11, 10, 3/2, 3/2⟩

/-- The mutable locals of the scheduling loop in `calculate`
(lines 157-162 and 175 of calculator.py). -/
structure LoopState where
  activities : List Activity
  current_time : ℚ
  miles_driven : ℚ
  miles_remaining : ℚ
  hours_until_break : ℚ
  total_driving_time : ℚ
  total_break_time : ℚ
deriving DecidableEq

/-- Segment classification (lines 183-192 of calculator.py): compare the
cumulative miles driven against the deadhead miles to pick the note of the
next driving segment. -/
def classify (miles_driven deadhead_miles miles_this_segment : ℚ) : String :=
  if miles_driven < deadhead_miles then
    if miles_this_segment ≤ deadhead_miles - miles_driven then "Deadhead (empty)"
    else "Deadhead + Loaded"
  else "Loaded haul"

/-- Miles of the next driving segment
(`min(miles_remaining, hours_until_break * speed_mph)`, lines 179-180). -/
def segMiles (c : Config) (s : LoopState) : ℚ :=
  min s.miles_remaining (s.hours_until_break * c.speed_mph)

/-- Duration of the next driving segment
(`miles_this_segment / speed_mph`, line 181). -/
def segDur (c : Config) (s : LoopState) : ℚ := segMiles c s / c.speed_mph

/-- The Driving activity emitted by one loop iteration (lines 194-200). -/
def drvAct (c : Config) (deadhead_miles : ℚ) (s : LoopState) : Activity :=
  ⟨ActivityType.DRIVING, s.current_time, segDur c s, segMiles c s,
    classify s.miles_driven deadhead_miles (segMiles c s)⟩

/-- State after the driving part of one loop iteration (lines 194-206),
before the conditional break. -/
def mid (c : Config) (deadhead_miles : ℚ) (s : LoopState) : LoopState :=
  { activities := s.activities ++ [drvAct c deadhead_miles s]
    current_time := s.current_time + segDur c s
    miles_driven := s.miles_driven + segMiles c s
    miles_remaining := s.miles_remaining - segMiles c s
    hours_until_break := s.hours_until_break - segDur c s
    total_driving_time := s.total_driving_time + segDur c s
    total_break_time := s.total_break_time }

/-- One full iteration of the scheduling while-loop (lines 177-219): the
driving segment followed by the conditional mandatory break
(lines 209-219). -/
def step (c : Config) (deadhead_miles : ℚ) (s : LoopState) : LoopState :=
  let s1 := mid c deadhead_miles s
  if s1.hours_until_break ≤ 0 ∧ 0 < s1.miles_remaining then
    { s1 with
      activities := s1.activities ++
        [⟨ActivityType.BREAK, s1.current_time, c.break_duration, 0,
          "Mandatory 10-hour rest"⟩]
      current_time := s1.current_time + c.break_duration
      total_break_time := s1.total_break_time + c.break_duration
      hours_until_break := c.max_driving_hours }
  else s1

/-- The while-loop `while miles_remaining > 0` (line 177), with explicit
fuel; `none` models a loop that does not finish within the fuel. -/
def loop (c : Config) (deadhead_miles : ℚ) : Nat → LoopState → Option LoopState
  | 0, s => if 0 < s.miles_remaining then none else some s
  | fuel + 1, s =>
    if 0 < s.miles_remaining then loop c deadhead_miles fuel (step c deadhead_miles s)
    else some s

/-- The Loading activity emitted before the loop (lines 165-171). -/
def loadingAct (c : Config) : Activity :=
  ⟨ActivityType.LOADING, 0, c.loading_duration, 0, "Loading cargo at origin"⟩

/-- The Unloading activity emitted after the loop (lines 222-228),
starting at clock value `t`. -/
def unloadAct (c : Config) (t : ℚ) : Activity :=
  ⟨ActivityType.UNLOADING, t, c.unloading_duration, 0,
    "Unloading cargo at destination"⟩

/-- The loop state right before the first iteration: the Loading activity
has been emitted and the clock advanced by `loading_duration`
(lines 157-175). -/
def initState (c : Config) (total_miles remaining_hours : ℚ) : LoopState :=
  { activities := [loadingAct c]
    current_time := c.loading_duration
    miles_driven := 0
    miles_remaining := total_miles
    hours_until_break := remaining_hours
    total_driving_time := 0
    total_break_time := 0 }

/-- Fuel that always suffices for the loop when `speed_mph` and
`max_driving_hours` are positive (proved below): one possibly-degenerate
first window plus one full window per
`max_driving_hours * speed_mph` miles. -/
def calcFuel (c : Config) (total_miles : ℚ) : Nat :=
  ⌈total_miles / (c.max_driving_hours * c.speed_mph)⌉.toNat + 2

/-- Shallow embedding of `RouteMetricsCalculator.calculate`
(lines 128-242).  `some (Except.error msg)` is a raised `ValueError`;
`some (Except.ok m)` is a normal return; `none` is a run that never
returns (only possible for degenerate configurations). -/
def calculate (c : Config) (total_miles deadhead_miles remaining_hours : ℚ) :
    Option (Except String RouteMetrics) :=
  if total_miles < 0 then some (Except.error "Total miles cannot be negative")
  else if deadhead_miles < 0 then some (Except.error "Deadhead miles cannot be negative")
  else if deadhead_miles > total_miles then
    some (Except.error "Deadhead miles cannot exceed total miles")
  else if remaining_hours < 0 then some (Except.error "Remaining hours cannot be negative")
  else if remaining_hours > c.max_driving_hours then
    some (Except.error ("Remaining hours cannot exceed max driving hours (" ++
      toString c.max_driving_hours ++ ")"))
  else
    match loop c deadhead_miles (calcFuel c total_miles)
        (initState c total_miles remaining_hours) with
    | none => none
    | some s =>
      some (Except.ok
        { total_miles := total_miles
          deadhead_miles := deadhead_miles
          loaded_miles := total_miles - deadhead_miles
          total_driving_time := s.total_driving_time
          total_break_time := s.total_break_time
          total_load_unload_time := c.loading_duration + c.unloading_duration
          total_time := s.current_time + c.unloading_duration
          activities := s.activities ++ [unloadAct c s.current_time] })

/-- Sum of the durations of the Driving activities of a schedule. -/
def drivingTime : List Activity → ℚ
  | [] => 0
  | a :: rest =>
    (if a.activity_type = ActivityType.DRIVING then a.duration else 0) + drivingTime rest

/-- Sum of the durations of the Break activities of a schedule. -/
def breakTime : List Activity → ℚ
  | [] => 0
  | a :: rest =>
    (if a.activity_type = ActivityType.BREAK then a.duration else 0) + breakTime rest

/-- Sum of the miles of the Driving activities of a schedule. -/
def drivingMiles : List Activity → ℚ
  | [] => 0
  | a :: rest =>
    (if a.activity_type = ActivityType.DRIVING then a.miles else 0) + drivingMiles rest

/-- Sum of the miles of all activities of a schedule. -/
def milesSum : List Activity → ℚ
  | [] => 0
  | a :: rest => a.miles + milesSum rest

/-- Sum of the durations of all activities of a schedule. -/
def durSum : List Activity → ℚ
  | [] => 0
  | a :: rest => a.duration + durSum rest

/-- The list of activities forms a gapless timeline that starts at clock
`t0` and ends at clock `t`: each activity starts where the previous one
ended. -/
def timeline : ℚ → List Activity → ℚ → Prop
  | t0, [], t => t = t0
  | t0, a :: rest, t => a.start_time = t0 ∧ timeline (Activity.end_time a) rest t

/-- Every Driving activity of the schedule carries the note that
`classify` assigns from the miles accumulated before it. -/
def NoteInv (deadhead_miles : ℚ) (l : List Activity) : Prop :=
  ∀ i, (h : i < l.length) → (l[i]).activity_type = ActivityType.DRIVING →
    (l[i]).notes = classify (milesSum (l.take i)) deadhead_miles (l[i]).miles

/-! ### Basic lemmas on the aggregation functions and `timeline` -/

@[simp]
theorem drivingTime_nil : drivingTime [] = 0 := rfl

@[simp]
theorem drivingTime_cons (a : Activity) (l : List Activity) :
    drivingTime (a :: l) =
      (if a.activity_type = ActivityType.DRIVING then a.duration else 0) + drivingTime l := rfl

@[simp]
theorem drivingTime_append (l1 l2 : List Activity) :
    drivingTime (l1 ++ l2) = drivingTime l1 + drivingTime l2 := by
  induction l1 with
  | nil => simp
  | cons a l ih => simp [ih]; ring

@[simp]
theorem breakTime_nil : breakTime [] = 0 := rfl

@[simp]
theorem breakTime_cons (a : Activity) (l : List Activity) :
    breakTime (a :: l) =
      (if a.activity_type = ActivityType.BREAK then a.duration else 0) + breakTime l := rfl

@[simp]
theorem breakTime_append (l1 l2 : List Activity) :
    breakTime (l1 ++ l2) = breakTime l1 + breakTime l2 := by
  induction l1 with
  | nil => simp
  | cons a l ih => simp [ih]; ring

@[simp]
theorem milesSum_nil : milesSum [] = 0 := rfl

@[simp]
theorem milesSum_cons (a : Activity) (l : List Activity) :
    milesSum (a :: l) = a.miles + milesSum l := rfl

@[simp]
theorem milesSum_append (l1 l2 : List Activity) :
    milesSum (l1 ++ l2) = milesSum l1 + milesSum l2 := by
  induction l1 with
  | nil => simp
  | cons a l ih => simp [ih]; ring

@[simp]
theorem durSum_nil : durSum [] = 0 := rfl

@[simp]
theorem durSum_cons (a : Activity) (l : List Activity) :
    durSum (a :: l) = a.duration + durSum l := rfl

@[simp]
theorem durSum_append (l1 l2 : List Activity) :
    durSum (l1 ++ l2) = durSum l1 + durSum l2 := by
  induction l1 with
  | nil => simp
  | cons a l ih => simp [ih]; ring

@[simp]
theorem drivingMiles_nil : drivingMiles [] = 0 := rfl

@[simp]
theorem drivingMiles_cons (a : Activity) (l : List Activity) :
    drivingMiles (a :: l) =
      (if a.activity_type = ActivityType.DRIVING then a.miles else 0) + drivingMiles l := rfl

theorem drivingMiles_eq_milesSum (l : List Activity)
    (h : ∀ a ∈ l, a.activity_type ≠ ActivityType.DRIVING → a.miles = 0) :
    drivingMiles l = milesSum l := by
  induction l with
  | nil => rfl
  | cons a rest ih =>
    have ha := h a (List.mem_cons_self a rest)
    have hrest := ih fun b hb => h b (List.mem_cons_of_mem a hb)
    by_cases hd : a.activity_type = ActivityType.DRIVING
    · simp [hd, hrest]
    · simp [hd, ha hd, hrest]

theorem timeline_append {t0 t1 t2 : ℚ} {l1 l2 : List Activity}
    (h1 : timeline t0 l1 t1) (h2 : timeline t1 l2 t2) :
    timeline t0 (l1 ++ l2) t2 := by
  induction l1 generalizing t0 with
  | nil => simpa [timeline, h1.symm] using h2
  | cons a rest ih =>
    obtain ⟨hstart, hrest⟩ := h1
    exact ⟨hstart, ih hrest⟩

theorem timeline_chain {t0 t : ℚ} {l : List Activity} (h : timeline t0 l t) :
    List.Chain' (fun a b => Activity.end_time a = b.start_time) l := by
  induction l generalizing t0 with
  | nil => exact List.chain'_nil
  | cons a rest ih =>
    obtain ⟨-, hrest⟩ := h
    cases rest with
    | nil => exact List.chain'_singleton a
    | cons b rest2 =>
      exact List.chain'_cons.mpr ⟨hrest.1.symm, ih hrest⟩

theorem timeline_durSum {t0 t : ℚ} {l : List Activity} (h : timeline t0 l t) :
    t = t0 + durSum l := by
  induction l generalizing t0 with
  | nil => simpa [timeline] using h
  | cons a rest ih =>
    obtain ⟨hstart, hrest⟩ := h
    have := ih hrest
    simp only [durSum_cons]
    rw [this, Activity.end_time, hstart]
    ring

theorem timeline_head_start {t0 t : ℚ} {a : Activity} {l : List Activity}
    (h : timeline t0 (a :: l) t) : a.start_time = t0 := h.1

theorem head_append_of_head {l1 l2 : List Activity} {a : Activity}
    (h : l1.head? = some a) : (l1 ++ l2).head? = some a := by
  cases l1 with
  | nil => simp at h
  | cons b rest => simpa using h

theorem noteInv_append {dh : ℚ} {l : List Activity} {a : Activity}
    (hl : NoteInv dh l)
    (ha : a.activity_type = ActivityType.DRIVING →
      a.notes = classify (milesSum l) dh a.miles) :
    NoteInv dh (l ++ [a]) := by
  intro i h hd
  have hlen : i < l.length + 1 := by simpa using h
  rcases Nat.lt_or_ge i l.length with hi | hi
  · have hget : (l ++ [a])[i] = l[i] := List.getElem_append_left hi
    have htake : (l ++ [a]).take i = l.take i :=
      List.take_append_of_le_length (Nat.le_of_lt hi)
    rw [hget] at hd ⊢
    rw [htake]
    exact hl i hi hd
  · have hieq : i = l.length := Nat.le_antisymm (Nat.lt_succ_iff.mp hlen) hi
    have hget : (l ++ [a])[i] = a := List.getElem_concat_length l a i hieq h
    have htake : (l ++ [a]).take i = l := by
      rw [hieq]; exact List.take_left l [a]
    rw [hget] at hd ⊢
    rw [htake]
    exact ha hd

/-! ### The loop invariant -/

/-- Everything `calculate` maintains across iterations of its scheduling
loop, for a run with configuration `c`, deadhead miles `dh` and total
miles `T`. -/
structure Inv (c : Config) (dh T : ℚ) (s : LoopState) : Prop where
  tl : timeline 0 s.activities s.current_time
  hd : s.activities.head? = some (loadingAct c)
  driveSum : drivingTime s.activities = s.total_driving_time
  breakSum : breakTime s.activities = s.total_break_time
  mileSum : milesSum s.activities = s.miles_driven
  nonDrive : ∀ a ∈ s.activities, a.activity_type ≠ ActivityType.DRIVING → a.miles = 0
  noteInv : NoteInv dh s.activities
  totalEq : s.miles_driven + s.miles_remaining = T
  remNonneg : 0 ≤ s.miles_remaining
  hoursNonneg : 0 ≤ s.hours_until_break
  drivenNonneg : 0 ≤ s.miles_driven

theorem inv_init (c : Config) (dh T r : ℚ) (hT : 0 ≤ T) (hr : 0 ≤ r) :
    Inv c dh T (initState c T r) where
  tl := by
    refine ⟨rfl, ?_⟩
    simp [timeline, initState, loadingAct, Activity.end_time]
  hd := rfl
  driveSum := by simp [initState, loadingAct]
  breakSum := by simp [initState, loadingAct]
  mileSum := by simp [initState, loadingAct]
  nonDrive := by
    intro a ha hna
    simp only [initState, List.mem_singleton] at ha
    simp [ha, loadingAct]
  noteInv := by
    intro i h hd
    simp only [initState, List.length_singleton] at h
    interval_cases i
    simp [initState, loadingAct] at hd
  totalEq := by simp [initState]
  remNonneg := hT
  hoursNonneg := hr
  drivenNonneg := le_refl 0

theorem inv_mid (c : Config) (dh T : ℚ) (s : LoopState)
    (hs : 0 < c.speed_mph) (hrem : 0 < s.miles_remaining)
    (inv : Inv c dh T s) : Inv c dh T (mid c dh s) := by
  have hseg0 : 0 ≤ segMiles c s :=
    le_min (le_of_lt hrem) (mul_nonneg inv.hoursNonneg (le_of_lt hs))
  have hsegrem : segMiles c s ≤ s.miles_remaining := min_le_left _ _
  have hseghr : segMiles c s ≤ s.hours_until_break * c.speed_mph := min_le_right _ _
  have hdur0 : 0 ≤ segDur c s := div_nonneg hseg0 (le_of_lt hs)
  have hdurle : segDur c s ≤ s.hours_until_break := by
    rw [segDur, div_le_iff₀ hs]
    exact hseghr
  refine ⟨?_, ?_, ?_, ?_, ?_, ?_, ?_, ?_, ?_, ?_, ?_⟩
  · refine timeline_append inv.tl ?_
    exact ⟨rfl, by simp [mid, drvAct, Activity.end_time, timeline]⟩
  · exact head_append_of_head inv.hd
  · simp [mid, drvAct, inv.driveSum]
  · simp [mid, drvAct, inv.breakSum]
  · simp [mid, drvAct, inv.mileSum]
  · intro a ha hna
    simp only [mid, List.mem_append, List.mem_singleton] at ha
    rcases ha with ha | ha
    · exact inv.nonDrive a ha hna
    · exact absurd (by rw [ha]; rfl) hna
  · refine noteInv_append inv.noteInv ?_
    intro _
    rw [inv.mileSum]
    rfl
  · show s.miles_driven + segMiles c s + (s.miles_remaining - segMiles c s) = T
    have := inv.totalEq
    ring_nf
    ring_nf at this
    exact this
  · show 0 ≤ s.miles_remaining - segMiles c s
    linarith
  · show 0 ≤ s.hours_until_break - segDur c s
    linarith
  · show 0 ≤ s.miles_driven + segMiles c s
    have := inv.drivenNonneg
    linarith

theorem inv_step (c : Config) (dh T : ℚ) (s : LoopState)
    (hs : 0 < c.speed_mph) (hm : 0 < c.max_driving_hours)
    (hrem : 0 < s.miles_remaining)
    (inv : Inv c dh T s) : Inv c dh T (step c dh s) := by
  have hmid := inv_mid c dh T s hs hrem inv
  rw [step]
  split
  · set s1 := mid c dh s with hs1
    refine ⟨?_, ?_, ?_, ?_, ?_, ?_, ?_, ?_, ?_, ?_, ?_⟩
    · refine timeline_append hmid.tl ?_
      exact ⟨rfl, by simp [timeline, Activity.end_time]⟩
    · exact head_append_of_head hmid.hd
    · simpa using hmid.driveSum
    · simpa using hmid.breakSum
    · simpa using hmid.mileSum
    · intro a ha hna
      simp only [List.mem_append, List.mem_singleton] at ha
      rcases ha with ha | ha
      · exact hmid.nonDrive a ha hna
      · rw [ha]
    · refine noteInv_append hmid.noteInv ?_
      intro hcontra
      exact absurd hcontra (by simp)
    · exact hmid.totalEq
    · exact hmid.remNonneg
    · exact le_of_lt hm
    · exact hmid.drivenNonneg
  · exact hmid

theorem loop_some_of_nonpos (c : Config) (dh : ℚ) (fuel : Nat) (s : LoopState)
    (h : s.miles_remaining ≤ 0) : loop c dh fuel s = some s := by
  cases fuel <;> simp [loop, not_lt.mpr h]

theorem step_extends (c : Config) (dh : ℚ) (s : LoopState) :
    ∃ l, (step c dh s).activities = s.activities ++ l := by
  rw [step]
  split
  · exact ⟨[drvAct c dh s] ++
      [⟨ActivityType.BREAK, (mid c dh s).current_time, c.break_duration, 0,
        "Mandatory 10-hour rest"⟩], by simp [mid]⟩
  · exact ⟨[drvAct c dh s], rfl⟩

theorem loop_extends (c : Config) (dh : ℚ) (fuel : Nat) (s t : LoopState)
    (h : loop c dh fuel s = some t) : ∃ l, t.activities = s.activities ++ l := by
  induction fuel generalizing s with
  | zero =>
    rw [loop] at h
    split at h
    · exact absurd h (by simp)
    · exact ⟨[], by simp [← Option.some.inj h]⟩
  | succ n ih =>
    rw [loop] at h
    split at h
    · obtain ⟨l1, hl1⟩ := step_extends c dh s
      obtain ⟨l2, hl2⟩ := ih (step c dh s) h
      exact ⟨l1 ++ l2, by rw [hl2, hl1, List.append_assoc]⟩
    · exact ⟨[], by simp [← Option.some.inj h]⟩

theorem loop_inv (c : Config) (dh T : ℚ)
    (hs : 0 < c.speed_mph) (hm : 0 < c.max_driving_hours) (fuel : Nat)
    (s t : LoopState) (h : loop c dh fuel s = some t) (inv : Inv c dh T s) :
    Inv c dh T t ∧ t.miles_remaining = 0 := by
  induction fuel generalizing s with
  | zero =>
    rw [loop] at h
    split at h
    · exact absurd h (by simp)
    · obtain rfl := Option.some.inj h
      exact ⟨inv, le_antisymm (not_lt.mp (by assumption)) inv.remNonneg⟩
  | succ n ih =>
    rw [loop] at h
    split at h
    · exact ih (step c dh s) h (inv_step c dh T s hs hm (by assumption) inv)
    · obtain rfl := Option.some.inj h
      exact ⟨inv, le_antisymm (not_lt.mp (by assumption)) inv.remNonneg⟩

/-! ### Termination of the scheduling loop -/

theorem step_break_case (c : Config) (dh : ℚ) (s : LoopState)
    (h1 : (mid c dh s).hours_until_break ≤ 0)
    (h2 : 0 < (mid c dh s).miles_remaining) :
    step c dh s =
      { mid c dh s with
        activities := (mid c dh s).activities ++
          [⟨ActivityType.BREAK, (mid c dh s).current_time, c.break_duration, 0,
            "Mandatory 10-hour rest"⟩]
        current_time := (mid c dh s).current_time + c.break_duration
        total_break_time := (mid c dh s).total_break_time + c.break_duration
        hours_until_break := c.max_driving_hours } := by
  rw [step, if_pos ⟨h1, h2⟩]

theorem step_nobreak_case (c : Config) (dh : ℚ) (s : LoopState)
    (h : ¬((mid c dh s).hours_until_break ≤ 0 ∧ 0 < (mid c dh s).miles_remaining)) :
    step c dh s = mid c dh s := by
  rw [step, if_neg h]

theorem step_of_fits (c : Config) (dh : ℚ) (s : LoopState)
    (hfits : s.miles_remaining ≤ s.hours_until_break * c.speed_mph) :
    step c dh s = mid c dh s ∧ (mid c dh s).miles_remaining = 0 := by
  have hseg : segMiles c s = s.miles_remaining := min_eq_left hfits
  have hrem : (mid c dh s).miles_remaining = 0 := by
    show s.miles_remaining - segMiles c s = 0
    rw [hseg]; ring
  exact ⟨step_nobreak_case c dh s (by rw [hrem]; simp), hrem⟩

theorem step_full_window (c : Config) (dh : ℚ) (s : LoopState)
    (hs : 0 < c.speed_mph)
    (hmax : s.hours_until_break = c.max_driving_hours)
    (hbig : c.max_driving_hours * c.speed_mph < s.miles_remaining) :
    (step c dh s).miles_remaining =
        s.miles_remaining - c.max_driving_hours * c.speed_mph ∧
      (step c dh s).hours_until_break = c.max_driving_hours := by
  have hseg : segMiles c s = c.max_driving_hours * c.speed_mph := by
    rw [segMiles, hmax]
    exact min_eq_right (le_of_lt hbig)
  have hdur : segDur c s = c.max_driving_hours := by
    rw [segDur, hseg, mul_div_assoc, div_self (ne_of_gt hs), mul_one]
  have h1 : (mid c dh s).hours_until_break ≤ 0 := by
    show s.hours_until_break - segDur c s ≤ 0
    rw [hdur, hmax]; ring_nf; rfl
  have h2 : (mid c dh s).miles_remaining =
      s.miles_remaining - c.max_driving_hours * c.speed_mph := by
    show s.miles_remaining - segMiles c s = _
    rw [hseg]
  rw [step_break_case c dh s h1 (by rw [h2]; linarith)]
  exact ⟨h2, rfl⟩

theorem loop_some_of_full (c : Config) (dh : ℚ)
    (hs : 0 < c.speed_mph) :
    ∀ (k : Nat) (s : LoopState),
      s.hours_until_break = c.max_driving_hours →
      s.miles_remaining ≤ k * (c.max_driving_hours * c.speed_mph) →
      ∃ t, loop c dh (k + 1) s = some t := by
  intro k
  induction k with
  | zero =>
    intro s _ hbound
    simp only [Nat.cast_zero, zero_mul] at hbound
    exact ⟨s, loop_some_of_nonpos c dh 1 s hbound⟩
  | succ n ih =>
    intro s hmax hbound
    by_cases hpos : 0 < s.miles_remaining
    · have hunfold : loop c dh (n + 1 + 1) s = loop c dh (n + 1) (step c dh s) := by
        rw [loop, if_pos hpos]
      by_cases hbig : c.max_driving_hours * c.speed_mph < s.miles_remaining
      · obtain ⟨hrem, hh⟩ := step_full_window c dh s hs hmax hbig
        have hbound2 : (step c dh s).miles_remaining ≤
            n * (c.max_driving_hours * c.speed_mph) := by
          rw [hrem]
          push_cast at hbound ⊢
          linarith
        obtain ⟨t, ht⟩ := ih (step c dh s) hh hbound2
        exact ⟨t, by rw [hunfold, ht]⟩
      · have hfits : s.miles_remaining ≤ s.hours_until_break * c.speed_mph := by
          rw [hmax]
          exact not_lt.mp hbig
        obtain ⟨hstep, hrem⟩ := step_of_fits c dh s hfits
        refine ⟨mid c dh s, ?_⟩
        rw [hunfold, hstep]
        exact loop_some_of_nonpos c dh (n + 1) _ (le_of_eq hrem)
    · exact ⟨s, loop_some_of_nonpos c dh (n + 1 + 1) s (not_lt.mp hpos)⟩

theorem ceil_bound (T M : ℚ) (hT : 0 ≤ T) (hM : 0 < M) :
    T ≤ (⌈T / M⌉.toNat : ℚ) * M := by
  have hq : (0 : ℚ) ≤ T / M := div_nonneg hT (le_of_lt hM)
  have hc : (0 : ℤ) ≤ ⌈T / M⌉ := Int.ceil_nonneg hq
  have hcast : ((⌈T / M⌉.toNat : ℤ) : ℚ) = (⌈T / M⌉ : ℚ) := by
    rw [Int.toNat_of_nonneg hc]
  have hle : T / M ≤ (⌈T / M⌉ : ℚ) := Int.le_ceil _
  rw [div_le_iff₀ hM] at hle
  calc T ≤ (⌈T / M⌉ : ℚ) * M := hle
    _ = (⌈T / M⌉.toNat : ℚ) * M := by
      push_cast at hcast ⊢
      rw [hcast]

theorem loop_init_some (c : Config) (dh T r : ℚ)
    (hs : 0 < c.speed_mph) (hm : 0 < c.max_driving_hours)
    (hT : 0 ≤ T) (hr : 0 ≤ r) :
    ∃ t, loop c dh (calcFuel c T) (initState c T r) = some t := by
  set K := ⌈T / (c.max_driving_hours * c.speed_mph)⌉.toNat with hK
  have hM : 0 < c.max_driving_hours * c.speed_mph := mul_pos hm hs
  have hTK : T ≤ (K : ℚ) * (c.max_driving_hours * c.speed_mph) :=
    ceil_bound T _ hT hM
  have hfuel : calcFuel c T = K + 2 := rfl
  by_cases hpos : 0 < T
  · have hunfold : loop c dh (K + 2) (initState c T r) =
        loop c dh (K + 1) (step c dh (initState c T r)) := by
      rw [loop, if_pos (show 0 < (initState c T r).miles_remaining from hpos)]
    by_cases hfits : T ≤ r * c.speed_mph
    · obtain ⟨hstep, hrem⟩ := step_of_fits c dh (initState c T r) hfits
      refine ⟨mid c dh (initState c T r), ?_⟩
      rw [hfuel, hunfold, hstep]
      exact loop_some_of_nonpos c dh (K + 1) _ (le_of_eq hrem)
    · have hseg : segMiles c (initState c T r) = r * c.speed_mph := by
        rw [segMiles]
        exact min_eq_right (le_of_lt (not_le.mp hfits))
      have hdur : segDur c (initState c T r) = r := by
        rw [segDur, hseg, mul_div_assoc, div_self (ne_of_gt hs), mul_one]
      have h1 : (mid c dh (initState c T r)).hours_until_break ≤ 0 := by
        show r - segDur c (initState c T r) ≤ 0
        rw [hdur]; ring_nf; rfl
      have h2 : (mid c dh (initState c T r)).miles_remaining = T - r * c.speed_mph := by
        show T - segMiles c (initState c T r) = _
        rw [hseg]
      have h2pos : 0 < (mid c dh (initState c T r)).miles_remaining := by
        rw [h2]
        linarith [not_le.mp hfits]
      have hstep := step_break_case c dh (initState c T r) h1 h2pos
      have hh : (step c dh (initState c T r)).hours_until_break =
          c.max_driving_hours := by rw [hstep]
      have hrem : (step c dh (initState c T r)).miles_remaining ≤
          (K : ℚ) * (c.max_driving_hours * c.speed_mph) := by
        have : (step c dh (initState c T r)).miles_remaining =
            T - r * c.speed_mph := by rw [hstep]; exact h2
        rw [this]
        have : 0 ≤ r * c.speed_mph := mul_nonneg hr (le_of_lt hs)
        linarith
      obtain ⟨t, ht⟩ := loop_some_of_full c dh hs K (step c dh (initState c T r)) hh hrem
      exact ⟨t, by rw [hfuel, hunfold, ht]⟩
  · exact ⟨initState c T r,
      loop_some_of_nonpos c dh _ _ (not_lt.mp hpos)⟩

/-! ### The master specification lemma for `calculate` -/

/-- The result record assembled by `calculate` from the final loop state. -/
def mkMetrics (c : Config) (T dh : ℚ) (s : LoopState) : RouteMetrics :=
  { total_miles := T
    deadhead_miles := dh
    loaded_miles := T - dh
    total_driving_time := s.total_driving_time
    total_break_time := s.total_break_time
    total_load_unload_time := c.loading_duration + c.unloading_duration
    total_time := s.current_time + c.unloading_duration
    activities := s.activities ++ [unloadAct c s.current_time] }

theorem calculate_spec (c : Config) (T dh r : ℚ)
    (hs : 0 < c.speed_mph) (hm : 0 < c.max_driving_hours)
    (h1 : 0 ≤ T) (h2 : 0 ≤ dh) (h3 : dh ≤ T) (h4 : 0 ≤ r)
    (h5 : r ≤ c.max_driving_hours) :
    ∃ s : LoopState,
      loop c dh (calcFuel c T) (initState c T r) = some s ∧
      Inv c dh T s ∧ s.miles_remaining = 0 ∧
      calculate c T dh r = some (Except.ok (mkMetrics c T dh s)) := by
  obtain ⟨s, hloop⟩ := loop_init_some c dh T r hs hm h1 h4
  obtain ⟨hinv, hrem⟩ :=
    loop_inv c dh T hs hm _ _ s hloop (inv_init c dh T r h1 h4)
  refine ⟨s, hloop, hinv, hrem, ?_⟩
  rw [calculate, if_neg (not_lt.mpr h1), if_neg (not_lt.mpr h2),
    if_neg (not_lt.mpr h3), if_neg (not_lt.mpr h4), if_neg (not_lt.mpr h5),
    hloop]
  rfl

theorem mkMetrics_timeline (c : Config) (T dh : ℚ) (s : LoopState)
    (inv : Inv c dh T s) :
    timeline 0 (mkMetrics c T dh s).activities (mkMetrics c T dh s).total_time := by
  refine timeline_append inv.tl ?_
  exact ⟨rfl, by simp [timeline, unloadAct, Activity.end_time, mkMetrics]⟩

/-! ### The claims -/

/-- C1: for every valid input (`total_miles ≥ 0`,
`0 ≤ deadhead_miles ≤ total_miles`,
`0 ≤ remaining_hours ≤ max_driving_hours`, positive speed and driving
window), `calculate` returns a schedule whose activity list is a
contiguous gapless timeline: every activity ends exactly where the next
one starts, and the first activity starts at time 0. -/
theorem c1_contiguous_timeline (c : Config) (T dh r : ℚ)
    (hs : 0 < c.speed_mph) (hm : 0 < c.max_driving_hours)
    (h1 : 0 ≤ T) (h2 : 0 ≤ dh) (h3 : dh ≤ T) (h4 : 0 ≤ r)
    (h5 : r ≤ c.max_driving_hours) :
    ∃ m : RouteMetrics, calculate c T dh r = some (Except.ok m) ∧
      List.Chain' (fun a b => Activity.end_time a = b.start_time) m.activities ∧
      ∃ a rest, m.activities = a :: rest ∧ a.start_time = 0 := by
  obtain ⟨s, hloop, hinv, hrem, hcalc⟩ :=
    calculate_spec c T dh r hs hm h1 h2 h3 h4 h5
  have htl := mkMetrics_timeline c T dh s hinv
  refine ⟨_, hcalc, timeline_chain htl, ?_⟩
  have hne := hinv.hd
  cases hact : s.activities with
  | nil => rw [hact] at hne; simp at hne
  | cons a rest =>
    rw [hact] at hne
    have ha : a = loadingAct c := by simpa using hne
    refine ⟨a, rest ++ [unloadAct c s.current_time], ?_, ?_⟩
    · show s.activities ++ [unloadAct c s.current_time] = _
      rw [hact]; simp
    · rw [ha]; rfl

theorem c1_contiguous_timeline_witness :
    ∃ m : RouteMetrics, calculate defaultConfig 300 50 11 = some (Except.ok m) ∧
      List.Chain' (fun a b => Activity.end_time a = b.start_time) m.activities ∧
      ∃ a rest, m.activities = a :: rest ∧ a.start_time = 0 :=
  c1_contiguous_timeline defaultConfig 300 50 11
    (by norm_num [defaultConfig]) (by norm_num [defaultConfig])
    (by norm_num) (by norm_num) (by norm_num) (by norm_num)
    (by norm_num [defaultConfig])

/-- C2: for every valid input, the reported `total_driving_time` is the
sum of the Driving durations, `total_break_time` the sum of the Break
durations, `total_load_unload_time` is always
`loading_duration + unloading_duration`, and `total_time` equals the
end time of the last activity and the sum of all activity durations. -/
theorem c2_aggregate_totals (c : Config) (T dh r : ℚ)
    (hs : 0 < c.speed_mph) (hm : 0 < c.max_driving_hours)
    (h1 : 0 ≤ T) (h2 : 0 ≤ dh) (h3 : dh ≤ T) (h4 : 0 ≤ r)
    (h5 : r ≤ c.max_driving_hours) :
    ∃ m : RouteMetrics, calculate c T dh r = some (Except.ok m) ∧
      m.total_driving_time = drivingTime m.activities ∧
      m.total_break_time = breakTime m.activities ∧
      m.total_load_unload_time = c.loading_duration + c.unloading_duration ∧
      (∃ pre u, m.activities = pre ++ [u] ∧ Activity.end_time u = m.total_time) ∧
      m.total_time = durSum m.activities := by
  obtain ⟨s, hloop, hinv, hrem, hcalc⟩ :=
    calculate_spec c T dh r hs hm h1 h2 h3 h4 h5
  have htl := mkMetrics_timeline c T dh s hinv
  refine ⟨_, hcalc, ?_, ?_, rfl, ?_, ?_⟩
  · show s.total_driving_time = drivingTime (s.activities ++ [unloadAct c s.current_time])
    simp [unloadAct, hinv.driveSum]
  · show s.total_break_time = breakTime (s.activities ++ [unloadAct c s.current_time])
    simp [unloadAct, hinv.breakSum]
  · exact ⟨s.activities, unloadAct c s.current_time, rfl, rfl⟩
  · have := timeline_durSum htl
    simpa using this

theorem c2_aggregate_totals_witness :
    ∃ m : RouteMetrics, calculate defaultConfig 700 100 11 = some (Except.ok m) ∧
      m.total_driving_time = drivingTime m.activities ∧
      m.total_break_time = breakTime m.activities ∧
      m.total_load_unload_time =
        defaultConfig.loading_duration + defaultConfig.unloading_duration ∧
      (∃ pre u, m.activities = pre ++ [u] ∧ Activity.end_time u = m.total_time) ∧
      m.total_time = durSum m.activities :=
  c2_aggregate_totals defaultConfig 700 100 11
    (by norm_num [defaultConfig]) (by norm_num [defaultConfig])
    (by norm_num) (by norm_num) (by norm_num) (by norm_num)
    (by norm_num [defaultConfig])

/-- C7: for every valid input the returned metrics satisfy
`loaded_miles = total_miles - deadhead_miles`, `loaded_miles ≥ 0`, and
echo the given `total_miles` and `deadhead_miles` unchanged. -/
theorem c7_loaded_miles (c : Config) (T dh r : ℚ)
    (hs : 0 < c.speed_mph) (hm : 0 < c.max_driving_hours)
    (h1 : 0 ≤ T) (h2 : 0 ≤ dh) (h3 : dh ≤ T) (h4 : 0 ≤ r)
    (h5 : r ≤ c.max_driving_hours) :
    ∃ m : RouteMetrics, calculate c T dh r = some (Except.ok m) ∧
      m.loaded_miles = T - dh ∧ 0 ≤ m.loaded_miles ∧
      m.total_miles = T ∧ m.deadhead_miles = dh := by
  obtain ⟨s, hloop, hinv, hrem, hcalc⟩ :=
    calculate_spec c T dh r hs hm h1 h2 h3 h4 h5
  refine ⟨_, hcalc, rfl, ?_, rfl, rfl⟩
  show 0 ≤ T - dh
  linarith

theorem c7_loaded_miles_witness :
    ∃ m : RouteMetrics, calculate defaultConfig 300 50 11 = some (Except.ok m) ∧
      m.loaded_miles = 300 - 50 ∧ 0 ≤ m.loaded_miles ∧
      m.total_miles = 300 ∧ m.deadhead_miles = 50 :=
  c7_loaded_miles defaultConfig 300 50 11
    (by norm_num [defaultConfig]) (by norm_num [defaultConfig])
    (by norm_num) (by norm_num) (by norm_num) (by norm_num)
    (by norm_num [defaultConfig])

/-- C10: for every valid input, the miles of the Driving activities sum
to `total_miles`, and every non-Driving activity (Loading, Break,
Unloading) has `miles = 0`. -/
theorem c10_miles_accounting (c : Config) (T dh r : ℚ)
    (hs : 0 < c.speed_mph) (hm : 0 < c.max_driving_hours)
    (h1 : 0 ≤ T) (h2 : 0 ≤ dh) (h3 : dh ≤ T) (h4 : 0 ≤ r)
    (h5 : r ≤ c.max_driving_hours) :
    ∃ m : RouteMetrics, calculate c T dh r = some (Except.ok m) ∧
      drivingMiles m.activities = T ∧
      ∀ a ∈ m.activities, a.activity_type ≠ ActivityType.DRIVING → a.miles = 0 := by
  obtain ⟨s, hloop, hinv, hrem, hcalc⟩ :=
    calculate_spec c T dh r hs hm h1 h2 h3 h4 h5
  have hnd : ∀ a ∈ (mkMetrics c T dh s).activities,
      a.activity_type ≠ ActivityType.DRIVING → a.miles = 0 := by
    intro a ha hna
    simp only [mkMetrics, List.mem_append, List.mem_singleton] at ha
    rcases ha with ha | ha
    · exact hinv.nonDrive a ha hna
    · simp [ha, unloadAct]
  refine ⟨_, hcalc, ?_, hnd⟩
  rw [drivingMiles_eq_milesSum _ hnd]
  show milesSum (s.activities ++ [unloadAct c s.current_time]) = T
  have := hinv.totalEq
  rw [hrem] at this
  simp [unloadAct, hinv.mileSum]
  linarith

theorem c10_miles_accounting_witness :
    ∃ m : RouteMetrics, calculate defaultConfig 1500 200 11 = some (Except.ok m) ∧
      drivingMiles m.activities = 1500 ∧
      ∀ a ∈ m.activities, a.activity_type ≠ ActivityType.DRIVING → a.miles = 0 :=
  c10_miles_accounting defaultConfig 1500 200 11
    (by norm_num [defaultConfig]) (by norm_num [defaultConfig])
    (by norm_num) (by norm_num) (by norm_num) (by norm_num)
    (by norm_num [defaultConfig])

/-- C3: `calculate` raises an invalid-input error exactly when one of the
five validation conditions holds; the checks run in source order so the
first violated condition determines the message; on failure no result is
produced (the error carries no metrics and no activities); and on a valid
input no error is raised (the call returns a result). -/
theorem c3_validation (c : Config)
    (hs : 0 < c.speed_mph) (hm : 0 < c.max_driving_hours) (T dh r : ℚ) :
    ((∃ msg, calculate c T dh r = some (Except.error msg)) ↔
      (T < 0 ∨ dh < 0 ∨ T < dh ∨ r < 0 ∨ c.max_driving_hours < r)) ∧
    (T < 0 →
      calculate c T dh r = some (Except.error "Total miles cannot be negative")) ∧
    (0 ≤ T → dh < 0 →
      calculate c T dh r = some (Except.error "Deadhead miles cannot be negative")) ∧
    (0 ≤ T → 0 ≤ dh → T < dh →
      calculate c T dh r = some (Except.error "Deadhead miles cannot exceed total miles")) ∧
    (0 ≤ T → 0 ≤ dh → dh ≤ T → r < 0 →
      calculate c T dh r = some (Except.error "Remaining hours cannot be negative")) ∧
    (0 ≤ T → 0 ≤ dh → dh ≤ T → 0 ≤ r → c.max_driving_hours < r →
      calculate c T dh r = some (Except.error
        ("Remaining hours cannot exceed max driving hours (" ++
          toString c.max_driving_hours ++ ")"))) ∧
    (0 ≤ T → 0 ≤ dh → dh ≤ T → 0 ≤ r → r ≤ c.max_driving_hours →
      ∃ m, calculate c T dh r = some (Except.ok m)) := by
  have e1 : T < 0 →
      calculate c T dh r = some (Except.error "Total miles cannot be negative") := by
    intro h
    rw [calculate, if_pos h]
  have e2 : 0 ≤ T → dh < 0 →
      calculate c T dh r = some (Except.error "Deadhead miles cannot be negative") := by
    intro hT h
    rw [calculate, if_neg (not_lt.mpr hT), if_pos h]
  have e3 : 0 ≤ T → 0 ≤ dh → T < dh →
      calculate c T dh r = some (Except.error "Deadhead miles cannot exceed total miles") := by
    intro hT hdh h
    rw [calculate, if_neg (not_lt.mpr hT), if_neg (not_lt.mpr hdh), if_pos h]
  have e4 : 0 ≤ T → 0 ≤ dh → dh ≤ T → r < 0 →
      calculate c T dh r = some (Except.error "Remaining hours cannot be negative") := by
    intro hT hdh hd h
    rw [calculate, if_neg (not_lt.mpr hT), if_neg (not_lt.mpr hdh),
      if_neg (not_lt.mpr hd), if_pos h]
  have e5 : 0 ≤ T → 0 ≤ dh → dh ≤ T → 0 ≤ r → c.max_driving_hours < r →
      calculate c T dh r = some (Except.error
        ("Remaining hours cannot exceed max driving hours (" ++
          toString c.max_driving_hours ++ ")")) := by
    intro hT hdh hd hr h
    rw [calculate, if_neg (not_lt.mpr hT), if_neg (not_lt.mpr hdh),
      if_neg (not_lt.mpr hd), if_neg (not_lt.mpr hr), if_pos h]
  have eok : 0 ≤ T → 0 ≤ dh → dh ≤ T → 0 ≤ r → r ≤ c.max_driving_hours →
      ∃ m, calculate c T dh r = some (Except.ok m) := by
    intro hT hdh hd hr hmax
    obtain ⟨s, -, -, -, hcalc⟩ := calculate_spec c T dh r hs hm hT hdh hd hr hmax
    exact ⟨_, hcalc⟩
  refine ⟨⟨?_, ?_⟩, e1, e2, e3, e4, e5, eok⟩
  · rintro ⟨msg, hmsg⟩
    by_contra hcon
    push_neg at hcon
    obtain ⟨n1, n2, n3, n4, n5⟩ := hcon
    obtain ⟨m, hm2⟩ := eok n1 n2 n3 n4 n5
    rw [hm2] at hmsg
    simp at hmsg
  · intro hdisj
    by_cases k1 : T < 0
    · exact ⟨_, e1 k1⟩
    by_cases k2 : dh < 0
    · exact ⟨_, e2 (not_lt.mp k1) k2⟩
    by_cases k3 : T < dh
    · exact ⟨_, e3 (not_lt.mp k1) (not_lt.mp k2) k3⟩
    by_cases k4 : r < 0
    · exact ⟨_, e4 (not_lt.mp k1) (not_lt.mp k2) (not_lt.mp k3) k4⟩
    by_cases k5 : c.max_driving_hours < r
    · exact ⟨_, e5 (not_lt.mp k1) (not_lt.mp k2) (not_lt.mp k3) (not_lt.mp k4) k5⟩
    · rcases hdisj with h | h | h | h | h <;>
        first
        | exact absurd h k1
        | exact absurd h k2
        | exact absurd h k3
        | exact absurd h k4
        | exact absurd h k5

theorem c3_validation_witness :
    ((∃ msg, calculate defaultConfig (-5) 0 2 = some (Except.error msg)) ↔
      ((-5 : ℚ) < 0 ∨ (0 : ℚ) < 0 ∨ (-5 : ℚ) < 0 ∨ (2 : ℚ) < 0 ∨
        defaultConfig.max_driving_hours < 2)) ∧
    ((-5 : ℚ) < 0 →
      calculate defaultConfig (-5) 0 2 =
        some (Except.error "Total miles cannot be negative")) ∧
    ((0 : ℚ) ≤ -5 → (0 : ℚ) < 0 →
      calculate defaultConfig (-5) 0 2 =
        some (Except.error "Deadhead miles cannot be negative")) ∧
    ((0 : ℚ) ≤ -5 → (0 : ℚ) ≤ 0 → (-5 : ℚ) < 0 →
      calculate defaultConfig (-5) 0 2 =
        some (Except.error "Deadhead miles cannot exceed total miles")) ∧
    ((0 : ℚ) ≤ -5 → (0 : ℚ) ≤ 0 → (0 : ℚ) ≤ -5 → (2 : ℚ) < 0 →
      calculate defaultConfig (-5) 0 2 =
        some (Except.error "Remaining hours cannot be negative")) ∧
    ((0 : ℚ) ≤ -5 → (0 : ℚ) ≤ 0 → (0 : ℚ) ≤ -5 → (0 : ℚ) ≤ 2 →
      defaultConfig.max_driving_hours < 2 →
      calculate defaultConfig (-5) 0 2 =
        some (Except.error
          ("Remaining hours cannot exceed max driving hours (" ++
            toString defaultConfig.max_driving_hours ++ ")"))) ∧
    ((0 : ℚ) ≤ -5 → (0 : ℚ) ≤ 0 → (0 : ℚ) ≤ -5 → (0 : ℚ) ≤ 2 →
      (2 : ℚ) ≤ defaultConfig.max_driving_hours →
      ∃ m, calculate defaultConfig (-5) 0 2 = some (Except.ok m)) :=
  c3_validation defaultConfig (by norm_num [defaultConfig])
    (by norm_num [defaultConfig]) (-5) 0 2

/-- C5: for every valid input with positive speed and positive maximum
driving hours the scheduling loop of `calculate` terminates (the fuel
`calcFuel` suffices and a result is returned), and a loop iteration that
starts with a positive driving window strictly decreases
`miles_remaining`. -/
theorem c5_termination (c : Config) (T dh r : ℚ)
    (hs : 0 < c.speed_mph) (hm : 0 < c.max_driving_hours)
    (h1 : 0 ≤ T) (h2 : 0 ≤ dh) (h3 : dh ≤ T) (h4 : 0 ≤ r)
    (h5 : r ≤ c.max_driving_hours) :
    (∃ s m, loop c dh (calcFuel c T) (initState c T r) = some s ∧
      calculate c T dh r = some (Except.ok m)) ∧
    (∀ s : LoopState, 0 < s.miles_remaining → 0 < s.hours_until_break →
      (step c dh s).miles_remaining < s.miles_remaining) := by
  constructor
  · obtain ⟨s, hloop, -, -, hcalc⟩ := calculate_spec c T dh r hs hm h1 h2 h3 h4 h5
    exact ⟨s, _, hloop, hcalc⟩
  · intro s hrem hh
    have hrw : (step c dh s).miles_remaining = s.miles_remaining - segMiles c s := by
      rw [step]
      split <;> rfl
    have hpos : 0 < segMiles c s := lt_min hrem (mul_pos hh hs)
    rw [hrw]
    linarith

theorem c5_termination_witness :
    (∃ s m, loop defaultConfig 100 (calcFuel defaultConfig 1500)
        (initState defaultConfig 1500 7) = some s ∧
      calculate defaultConfig 1500 100 7 = some (Except.ok m)) ∧
    (∀ s : LoopState, 0 < s.miles_remaining → 0 < s.hours_until_break →
      (step defaultConfig 100 s).miles_remaining < s.miles_remaining) :=
  c5_termination defaultConfig 1500 100 7
    (by norm_num [defaultConfig]) (by norm_num [defaultConfig])
    (by norm_num) (by norm_num) (by norm_num) (by norm_num)
    (by norm_num [defaultConfig])

/-- C8: for every valid input the first activity of the schedule is the
Loading activity (note "Loading cargo at origin") and the last is an
Unloading activity (note "Unloading cargo at destination"); when
`total_miles = 0` the schedule is exactly these two activities, no
Driving activity is emitted, and `total_driving_time = 0`. -/
theorem c8_first_loading_last_unloading (c : Config) (T dh r : ℚ)
    (hs : 0 < c.speed_mph) (hm : 0 < c.max_driving_hours)
    (h1 : 0 ≤ T) (h2 : 0 ≤ dh) (h3 : dh ≤ T) (h4 : 0 ≤ r)
    (h5 : r ≤ c.max_driving_hours) :
    ∃ m : RouteMetrics, calculate c T dh r = some (Except.ok m) ∧
      m.activities.head? = some (loadingAct c) ∧
      (loadingAct c).activity_type = ActivityType.LOADING ∧
      (loadingAct c).notes = "Loading cargo at origin" ∧
      (∃ pre u, m.activities = pre ++ [u] ∧
        u.activity_type = ActivityType.UNLOADING ∧
        u.notes = "Unloading cargo at destination") ∧
      (T = 0 →
        m.activities = [loadingAct c, unloadAct c c.loading_duration] ∧
        m.total_driving_time = 0 ∧
        ∀ a ∈ m.activities, a.activity_type ≠ ActivityType.DRIVING) := by
  obtain ⟨s, hloop, hinv, hrem, hcalc⟩ :=
    calculate_spec c T dh r hs hm h1 h2 h3 h4 h5
  refine ⟨_, hcalc, head_append_of_head hinv.hd, rfl, rfl,
    ⟨s.activities, unloadAct c s.current_time, rfl, rfl, rfl⟩, ?_⟩
  intro hT0
  subst hT0
  have hzero : loop c dh (calcFuel c 0) (initState c 0 r) =
      some (initState c 0 r) :=
    loop_some_of_nonpos c dh _ _ (le_refl 0)
  have hse : s = initState c 0 r := by
    rw [hloop] at hzero
    exact Option.some.inj hzero
  subst hse
  refine ⟨rfl, rfl, ?_⟩
  intro a ha
  have : a = loadingAct c ∨ a = unloadAct c c.loading_duration := by
    simpa [mkMetrics, initState] using ha
  rcases this with h | h <;> simp [h, loadingAct, unloadAct]

theorem c8_first_loading_last_unloading_witness :
    ∃ m : RouteMetrics, calculate defaultConfig 0 0 11 = some (Except.ok m) ∧
      m.activities.head? = some (loadingAct defaultConfig) ∧
      (loadingAct defaultConfig).activity_type = ActivityType.LOADING ∧
      (loadingAct defaultConfig).notes = "Loading cargo at origin" ∧
      (∃ pre u, m.activities = pre ++ [u] ∧
        u.activity_type = ActivityType.UNLOADING ∧
        u.notes = "Unloading cargo at destination") ∧
      ((0 : ℚ) = 0 →
        m.activities = [loadingAct defaultConfig,
          unloadAct defaultConfig defaultConfig.loading_duration] ∧
        m.total_driving_time = 0 ∧
        ∀ a ∈ m.activities, a.activity_type ≠ ActivityType.DRIVING) :=
  c8_first_loading_last_unloading defaultConfig 0 0 11
    (by norm_num [defaultConfig]) (by norm_num [defaultConfig])
    (by norm_num) (by norm_num) (by norm_num) (by norm_num)
    (by norm_num [defaultConfig])

/-- C6: for every valid input, every Driving activity of the schedule
carries the note obtained by comparing the miles accumulated before it
against `deadhead_miles`: "Deadhead (empty)" when the segment fits inside
the not-yet-driven deadhead portion, "Deadhead + Loaded" when it starts
inside the deadhead portion but extends past it, and "Loaded haul"
otherwise; the straddling segment stays a single activity with a single
note. -/
theorem c6_segment_notes (c : Config) (T dh r : ℚ)
    (hs : 0 < c.speed_mph) (hm : 0 < c.max_driving_hours)
    (h1 : 0 ≤ T) (h2 : 0 ≤ dh) (h3 : dh ≤ T) (h4 : 0 ≤ r)
    (h5 : r ≤ c.max_driving_hours) :
    ∃ m : RouteMetrics, calculate c T dh r = some (Except.ok m) ∧
      ∀ i, (h : i < m.activities.length) →
        (m.activities[i]).activity_type = ActivityType.DRIVING →
        (m.activities[i]).notes =
          if milesSum (m.activities.take i) < dh then
            if (m.activities[i]).miles ≤ dh - milesSum (m.activities.take i) then
              "Deadhead (empty)"
            else "Deadhead + Loaded"
          else "Loaded haul" := by
  obtain ⟨s, hloop, hinv, hrem, hcalc⟩ :=
    calculate_spec c T dh r hs hm h1 h2 h3 h4 h5
  have hni : NoteInv dh (mkMetrics c T dh s).activities := by
    refine noteInv_append hinv.noteInv ?_
    intro hcontra
    exact absurd hcontra (by simp [unloadAct])
  exact ⟨_, hcalc, fun i h hdrv => (hni i h hdrv).trans rfl⟩

theorem c6_segment_notes_witness :
    ∃ m : RouteMetrics, calculate defaultConfig 700 100 11 = some (Except.ok m) ∧
      ∀ i, (h : i < m.activities.length) →
        (m.activities[i]).activity_type = ActivityType.DRIVING →
        (m.activities[i]).notes =
          if milesSum (m.activities.take i) < 100 then
            if (m.activities[i]).miles ≤ 100 - milesSum (m.activities.take i) then
              "Deadhead (empty)"
            else "Deadhead + Loaded"
          else "Loaded haul" :=
  c6_segment_notes defaultConfig 700 100 11
    (by norm_num [defaultConfig]) (by norm_num [defaultConfig])
    (by norm_num) (by norm_num) (by norm_num) (by norm_num)
    (by norm_num [defaultConfig])

/-- C4: within a loop iteration (entered with miles still to drive), a
Break activity of exactly `break_duration` with note
"Mandatory 10-hour rest" is emitted right after the driving segment
exactly when the decremented driving window is `≤ 0` and miles remain;
after such a break the driving window is reset to the configured
`max_driving_hours` (not to the caller-supplied `remaining_hours`);
without the condition only the Driving activity is appended and the
window keeps its decremented value. -/
theorem c4_break_emission (c : Config) (dh : ℚ) (s : LoopState)
    (hrem : 0 < s.miles_remaining) :
    ((mid c dh s).hours_until_break =
      s.hours_until_break - segDur c s) ∧
    ((mid c dh s).miles_remaining =
      s.miles_remaining - segMiles c s) ∧
    (drvAct c dh s).activity_type = ActivityType.DRIVING ∧
    ((mid c dh s).hours_until_break ≤ 0 ∧ 0 < (mid c dh s).miles_remaining →
      (step c dh s).activities = s.activities ++
        [drvAct c dh s,
          ⟨ActivityType.BREAK, s.current_time + segDur c s, c.break_duration, 0,
            "Mandatory 10-hour rest"⟩] ∧
      (step c dh s).hours_until_break = c.max_driving_hours) ∧
    (¬((mid c dh s).hours_until_break ≤ 0 ∧ 0 < (mid c dh s).miles_remaining) →
      (step c dh s).activities = s.activities ++ [drvAct c dh s] ∧
      (step c dh s).hours_until_break = s.hours_until_break - segDur c s) := by
  refine ⟨rfl, rfl, rfl, ?_, ?_⟩
  · intro hcond
    rw [step_break_case c dh s hcond.1 hcond.2]
    exact ⟨by simp [mid], rfl⟩
  · intro hcond
    rw [step_nobreak_case c dh s hcond]
    exact ⟨rfl, rfl⟩

theorem c4_break_emission_witness :
    ((mid defaultConfig 0 ⟨[], 0, 0, 100, 5, 0, 0⟩).hours_until_break =
      (5 : ℚ) - segDur defaultConfig ⟨[], 0, 0, 100, 5, 0, 0⟩) ∧
    ((mid defaultConfig 0 ⟨[], 0, 0, 100, 5, 0, 0⟩).miles_remaining =
      (100 : ℚ) - segMiles defaultConfig ⟨[], 0, 0, 100, 5, 0, 0⟩) ∧
    (drvAct defaultConfig 0 ⟨[], 0, 0, 100, 5, 0, 0⟩).activity_type =
      ActivityType.DRIVING ∧
    ((mid defaultConfig 0 ⟨[], 0, 0, 100, 5, 0, 0⟩).hours_until_break ≤ 0 ∧
      0 < (mid defaultConfig 0 ⟨[], 0, 0, 100, 5, 0, 0⟩).miles_remaining →
      (step defaultConfig 0 ⟨[], 0, 0, 100, 5, 0, 0⟩).activities = [] ++
        [drvAct defaultConfig 0 ⟨[], 0, 0, 100, 5, 0, 0⟩,
          ⟨ActivityType.BREAK,
            0 + segDur defaultConfig ⟨[], 0, 0, 100, 5, 0, 0⟩,
            defaultConfig.break_duration, 0, "Mandatory 10-hour rest"⟩] ∧
      (step defaultConfig 0 ⟨[], 0, 0, 100, 5, 0, 0⟩).hours_until_break =
        defaultConfig.max_driving_hours) ∧
    (¬((mid defaultConfig 0 ⟨[], 0, 0, 100, 5, 0, 0⟩).hours_until_break ≤ 0 ∧
        0 < (mid defaultConfig 0 ⟨[], 0, 0, 100, 5, 0, 0⟩).miles_remaining) →
      (step defaultConfig 0 ⟨[], 0, 0, 100, 5, 0, 0⟩).activities =
        [] ++ [drvAct defaultConfig 0 ⟨[], 0, 0, 100, 5, 0, 0⟩] ∧
      (step defaultConfig 0 ⟨[], 0, 0, 100, 5, 0, 0⟩).hours_until_break =
        (5 : ℚ) - segDur defaultConfig ⟨[], 0, 0, 100, 5, 0, 0⟩) :=
  c4_break_emission defaultConfig 0 ⟨[], 0, 0, 100, 5, 0, 0⟩ (by norm_num)

/-- C9: for a valid input with `remaining_hours = 0` and
`total_miles > 0`, the schedule starts with Loading, then a Driving
activity of 0 miles and 0 duration, immediately followed by a Break: a
zero-length driving segment is emitted before any real driving. -/
theorem c9_zero_window_segment (c : Config) (T dh : ℚ)
    (hs : 0 < c.speed_mph) (hm : 0 < c.max_driving_hours)
    (hT : 0 < T) (h2 : 0 ≤ dh) (h3 : dh ≤ T) :
    ∃ (m : RouteMetrics) (a1 a2 : Activity) (rest : List Activity),
      calculate c T dh 0 = some (Except.ok m) ∧
      m.activities = loadingAct c :: a1 :: a2 :: rest ∧
      a1.activity_type = ActivityType.DRIVING ∧ a1.miles = 0 ∧
      a1.duration = 0 ∧ a2.activity_type = ActivityType.BREAK := by
  obtain ⟨s, hloop, hinv, hrem, hcalc⟩ :=
    calculate_spec c T dh 0 hs hm (le_of_lt hT) h2 h3 (le_refl 0) (le_of_lt hm)
  set s0 := initState c T 0 with hs0
  have hseg : segMiles c s0 = 0 := by
    rw [segMiles]
    show min T (0 * c.speed_mph) = 0
    rw [zero_mul]
    exact min_eq_right (le_of_lt hT)
  have hdur : segDur c s0 = 0 := by rw [segDur, hseg, zero_div]
  have hmid1 : (mid c dh s0).hours_until_break ≤ 0 := by
    show (0 : ℚ) - segDur c s0 ≤ 0
    rw [hdur]
    norm_num
  have hmid2 : 0 < (mid c dh s0).miles_remaining := by
    show 0 < T - segMiles c s0
    rw [hseg]
    linarith
  have hstep := step_break_case c dh s0 hmid1 hmid2
  have hstepacts : (step c dh s0).activities =
      [loadingAct c, drvAct c dh s0,
        ⟨ActivityType.BREAK, (mid c dh s0).current_time, c.break_duration, 0,
          "Mandatory 10-hour rest"⟩] := by
    rw [hstep]
    show ([loadingAct c] ++ [drvAct c dh s0]) ++ [_] = _
    simp
  have hfuel : calcFuel c T =
      ⌈T / (c.max_driving_hours * c.speed_mph)⌉.toNat + 1 + 1 := rfl
  rw [hfuel] at hloop
  have hunfold : loop c dh (⌈T / (c.max_driving_hours * c.speed_mph)⌉.toNat + 1 + 1) s0 =
      loop c dh (⌈T / (c.max_driving_hours * c.speed_mph)⌉.toNat + 1) (step c dh s0) := by
    rw [loop, if_pos (show 0 < s0.miles_remaining from hT)]
  rw [hunfold] at hloop
  obtain ⟨l, hl⟩ := loop_extends c dh _ _ s hloop
  rw [hstepacts] at hl
  refine ⟨mkMetrics c T dh s, drvAct c dh s0,
    ⟨ActivityType.BREAK, (mid c dh s0).current_time, c.break_duration, 0,
      "Mandatory 10-hour rest"⟩,
    l ++ [unloadAct c s.current_time], hcalc, ?_, rfl, hseg, hdur, rfl⟩
  show s.activities ++ [unloadAct c s.current_time] = _
  rw [hl]
  simp

theorem c9_zero_window_segment_witness :
    ∃ (m : RouteMetrics) (a1 a2 : Activity) (rest : List Activity),
      calculate defaultConfig 700 100 0 = some (Except.ok m) ∧
      m.activities = loadingAct defaultConfig :: a1 :: a2 :: rest ∧
      a1.activity_type = ActivityType.DRIVING ∧ a1.miles = 0 ∧
      a1.duration = 0 ∧ a2.activity_type = ActivityType.BREAK :=
  c9_zero_window_segment defaultConfig 700 100
    (by norm_num [defaultConfig]) (by norm_num [defaultConfig])
    (by norm_num) (by norm_num) (by norm_num)

end RoutePlanner
